import Mathlib

/-!
Verification of the Kaspa genesis-proof verifier.

Shallow embedding of the Python sources `verify_kaspa_genesis.py`,
`verification/store_rust.py` and `verification/store_checkpoint.py`.
Byte strings are modelled as `List Nat` with each element in `0..255`;
machine integers are `Nat` with explicit `% 2^w` where the code relies on
fixed-width behaviour.  Fallible code returns `Option`.
-/

namespace KaspaGenesis

/-- A byte string (`bytes` in the Python source). -/
abbrev Bytes := List Nat

/-- Little-endian encoding of `x` into `w` bytes
(`struct.pack` with `<H`/`<I`/`<Q`; values in range are encoded exactly). -/
def toLE (w : Nat) (x : Nat) : Bytes :=
  (List.range w).map (fun i => x / 256 ^ i % 256)

/-- Little-endian decoding of a byte string into a natural number
(`struct.unpack` with `<H`/`<I`/`<Q` on an exact-width buffer). -/
def leNat (bs : Bytes) : Nat :=
  bs.foldr (fun b acc => b + 256 * acc) 0

/-- Python slice `data[pos:pos+n]`: truncates silently at the end of the
buffer and never fails. -/
def sliceN (n : Nat) (data : Bytes) (pos : Nat) : Bytes :=
  (data.drop pos).take n

/-- `struct.unpack` of an `n`-byte little-endian integer at `pos`:
Python's `struct.unpack` raises unless the slice has exactly `n` bytes,
which holds iff `pos + n ≤ data.length`. -/
def readU (n : Nat) (data : Bytes) (pos : Nat) : Option Nat :=
  if pos + n ≤ data.length then some (leNat (sliceN n data pos)) else none

/-! ### BLAKE2b (RFC 7693), sequential mode, as provided by
`hashlib.blake2b(digest_size=·, key=·)` in the source. -/

/-- 64-bit modular addition. -/
def add64 (a b : Nat) : Nat := (a + b) % 2 ^ 64

/-- 64-bit right rotation. -/
def rotr64 (x n : Nat) : Nat := x / 2 ^ n + x % 2 ^ n * 2 ^ (64 - n)

/-- BLAKE2b initialization vector. -/
def IV : List Nat :=
  [0x6a09e667f3bcc908, 0xbb67ae8584caa73b, 0x3c6ef372fe94f82b,
   0xa54ff53a5f1d36f1, 0x510e527fade682d1, 0x9b05688c2b3e6c1f,
   0x1f83d9abfb41bd6b, 0x5be0cd19137e2179]

/-- BLAKE2 message schedule permutations. -/
def SIGMA : List (List Nat) :=
  [[0, 1, 2, 3, 4, 5, 6, 7, 8, 9, 10, 11, 12, 13, 14, 15],
   [14, 10, 4, 8, 9, 15, 13, 6, 1, 12, 0, 2, 11, 7, 5, 3],
   [11, 8, 12, 0, 5, 2, 15, 13, 10, 14, 3, 6, 7, 1, 9, 4],
   [7, 9, 3, 1, 13, 12, 11, 14, 2, 6, 5, 10, 4, 0, 15, 8],
   [9, 0, 5, 7, 2, 4, 10, 15, 14, 1, 11, 12, 6, 8, 3, 13],
   [2, 12, 6, 10, 0, 11, 8, 3, 4, 13, 7, 5, 15, 14, 1, 9],
   [12, 5, 1, 15, 14, 13, 4, 10, 0, 7, 6, 3, 9, 2, 8, 11],
   [13, 11, 7, 14, 12, 1, 3, 9, 5, 0, 15, 4, 8, 6, 2, 10],
   [6, 15, 14, 9, 11, 3, 0, 8, 12, 2, 13, 7, 1, 4, 10, 5],
   [10, 2, 8, 4, 7, 6, 1, 5, 15, 11, 9, 14, 3, 12, 13, 0]]

/-- The BLAKE2b `G` mixing function acting on the 16-word work vector. -/
def gMix (v : List Nat) (a b c d x y : Nat) : List Nat :=
  let va := v.getD a 0
  let vb := v.getD b 0
  let vc := v.getD c 0
  let vd := v.getD d 0
  let va := add64 (add64 va vb) x
  let vd := rotr64 (Nat.xor vd va) 32
  let vc := add64 vc vd
  let vb := rotr64 (Nat.xor vb vc) 24
  let va := add64 (add64 va vb) y
  let vd := rotr64 (Nat.xor vd va) 16
  let vc := add64 vc vd
  let vb := rotr64 (Nat.xor vb vc) 63
  ((((v.set a va).set b vb).set c vc).set d vd)

/-- One BLAKE2b round with message words `m` under permutation row `r % 10`. -/
def blakeRound (m : List Nat) (v : List Nat) (r : Nat) : List Nat :=
  let s := SIGMA.getD (r % 10) []
  let mi := fun i => m.getD (s.getD i 0) 0
  let v := gMix v 0 4 8 12 (mi 0) (mi 1)
  let v := gMix v 1 5 9 13 (mi 2) (mi 3)
  let v := gMix v 2 6 10 14 (mi 4) (mi 5)
  let v := gMix v 3 7 11 15 (mi 6) (mi 7)
  let v := gMix v 0 5 10 15 (mi 8) (mi 9)
  let v := gMix v 1 6 11 12 (mi 10) (mi 11)
  let v := gMix v 2 7 8 13 (mi 12) (mi 13)
  let v := gMix v 3 4 9 14 (mi 14) (mi 15)
  v

/-- The BLAKE2b compression function `F(h, block, t, f)`. -/
def compress (h : List Nat) (block : Bytes) (t : Nat) (f : Bool) : List Nat :=
  let m := (List.range 16).map (fun i => leNat (sliceN 8 block (8 * i)))
  let v := h ++ IV
  let v := v.set 12 (Nat.xor (v.getD 12 0) (t % 2 ^ 64))
  let v := v.set 13 (Nat.xor (v.getD 13 0) (t / 2 ^ 64))
  let v := if f then v.set 14 (Nat.xor (v.getD 14 0) (2 ^ 64 - 1)) else v
  let v := (List.range 12).foldl (fun v r => blakeRound m v r) v
  (List.range 8).map (fun i => Nat.xor (Nat.xor (h.getD i 0) (v.getD i 0)) (v.getD (i + 8) 0))

/-- Zero-pad a block to 128 bytes. -/
def padBlock (b : Bytes) : Bytes := b ++ List.replicate (128 - b.length) 0

/-- Split the first `n` 128-byte chunks off a byte string. -/
def takeBlocks (n : Nat) (d : Bytes) : List Bytes :=
  match n with
  | 0 => []
  | k + 1 => d.take 128 :: takeBlocks k (d.drop 128)

/-- Compress a nonempty list of message blocks; `tFinal` is the counter
value for the final (padded) block, `tAcc` the bytes compressed so far. -/
def processBlocks (tFinal : Nat) (h : List Nat) (tAcc : Nat) : List Bytes → List Nat
  | [] => h
  | [b] => compress h (padBlock b) tFinal true
  | b :: b' :: bs => processBlocks tFinal (compress h b (tAcc + 128) false) (tAcc + 128) (b' :: bs)

/-- Serialize the 8 state words to bytes, little-endian each. -/
def wordsToBytes : List Nat → Bytes
  | [] => []
  | w :: ws => toLE 8 w ++ wordsToBytes ws

/-- BLAKE2b with a `digestSize`-byte output and optional `key`
(`hashlib.blake2b(data, digest_size=digestSize, key=key)`). -/
def blake2b (digestSize : Nat) (key : Bytes) (data : Bytes) : Bytes :=
  let h0 := IV.set 0 (Nat.xor (IV.getD 0 0)
    (Nat.xor 0x01010000 (Nat.xor (key.length * 256) digestSize)))
  let out := fun (h : List Nat) => (wordsToBytes h).take digestSize
  if key.length = 0 then
    if data.length = 0 then
      out (compress h0 (List.replicate 128 0) 0 true)
    else
      out (processBlocks data.length h0 0 (takeBlocks ((data.length + 127) / 128) data))
  else
    if data.length = 0 then
      out (compress h0 (padBlock key) 128 true)
    else
      out (processBlocks (128 + data.length) (compress h0 (padBlock key) 128 false) 128
        (takeBlocks ((data.length + 127) / 128) data))

/-- Byte string of an ASCII string literal (hash keys in the source). -/
def strBytes (s : String) : Bytes := s.toList.map Char.toNat

end KaspaGenesis

namespace KaspaGenesis

/-! ### Data model

Headers as handled by `verify_kaspa_genesis.py` and the two stores.  The
Python sources wrap hash-valued fields in attribute objects (`x.hash`,
`level.parentHashes`); the embedding flattens those wrappers: a parent
level is the list of its 32-byte parent hashes. -/

/-- A block header. -/
structure Header where
  version : Nat
  parents : List (List Bytes)
  hashMerkleRoot : Bytes
  acceptedIDMerkleRoot : Bytes
  utxoCommitment : Bytes
  timeInMilliseconds : Nat
  bits : Nat
  nonce : Nat
  daaScore : Nat
  blueScore : Nat
  blueWork : Bytes
  pruningPoint : Bytes
  deriving DecidableEq, Repr

/-- A transaction outpoint (`previousOutpoint` in the source). -/
structure Outpoint where
  transactionId : Bytes
  index : Nat
  deriving DecidableEq, Repr

/-- A transaction input. -/
structure TxInput where
  previousOutpoint : Outpoint
  signatureScript : Bytes
  sequence : Nat
  deriving DecidableEq, Repr

/-- A script public key. -/
structure ScriptPublicKey where
  version : Nat
  script : Bytes
  deriving DecidableEq, Repr

/-- A transaction output. -/
structure TxOutput where
  value : Nat
  scriptPublicKey : ScriptPublicKey
  deriving DecidableEq, Repr

/-- A transaction (only the genesis coinbase is ever hashed by the driver,
but `transaction_hash` handles the general shape). -/
structure Transaction where
  version : Nat
  inputs : List TxInput
  outputs : List TxOutput
  lockTime : Nat
  subnetworkId : Bytes
  gas : Nat
  payload : Bytes
  deriving DecidableEq, Repr

/-! ### Hashing (`transaction_hash`, `header_hash` in `verify_kaspa_genesis.py`)

The Python code feeds an incremental `hashlib.blake2b` hasher; a sequence
of `update` calls hashes the concatenation of the fed chunks, so each
function is embedded as `blake2b` of an explicit preimage. -/

/-- Bytes fed to the hasher for one transaction input. -/
def txInputBytes (ti : TxInput) : Bytes :=
  ti.previousOutpoint.transactionId
    ++ toLE 4 ti.previousOutpoint.index ++ toLE 8 ti.signatureScript.length
    ++ ti.signatureScript ++ toLE 8 ti.sequence

/-- Bytes fed to the hasher for one transaction output. -/
def txOutputBytes (to_ : TxOutput) : Bytes :=
  toLE 8 to_.value ++ toLE 2 to_.scriptPublicKey.version
    ++ toLE 8 to_.scriptPublicKey.script.length ++ to_.scriptPublicKey.script

/-- The full `transaction_hash` preimage, mirroring the `update` sequence. -/
def txPreimage (t : Transaction) : Bytes :=
  toLE 2 t.version ++ toLE 8 t.inputs.length
    ++ (t.inputs.map txInputBytes).flatten
    ++ toLE 8 t.outputs.length
    ++ (t.outputs.map txOutputBytes).flatten
    ++ toLE 8 t.lockTime ++ t.subnetworkId
    ++ toLE 8 t.gas ++ toLE 8 t.payload.length ++ t.payload

/-- `transaction_hash` (verify_kaspa_genesis.py:47-69): keyed BLAKE2b-256
with key `"TransactionHash"` over the transaction fields. -/
def transaction_hash (t : Transaction) : Bytes :=
  blake2b 32 (strBytes "TransactionHash") (txPreimage t)

/-- Bytes fed to the hasher for one parent level: inner count then the
concatenated parent hashes. -/
def levelBytes (lvl : List Bytes) : Bytes :=
  toLE 8 lvl.length ++ lvl.flatten

/-- The full `header_hash` preimage, mirroring the `update` sequence. -/
def headerPreimage (h : Header) : Bytes :=
  toLE 2 h.version ++ toLE 8 h.parents.length
    ++ (h.parents.map levelBytes).flatten
    ++ h.hashMerkleRoot ++ h.acceptedIDMerkleRoot ++ h.utxoCommitment
    ++ toLE 8 h.timeInMilliseconds ++ toLE 4 h.bits ++ toLE 8 h.nonce
    ++ toLE 8 h.daaScore ++ toLE 8 h.blueScore ++ toLE 8 h.blueWork.length
    ++ h.blueWork ++ h.pruningPoint

/-- `header_hash` (verify_kaspa_genesis.py:71-91): keyed BLAKE2b-256 with
key `"BlockHash"` over the header fields, pruning point last. -/
def header_hash (h : Header) : Bytes :=
  blake2b 32 (strBytes "BlockHash") (headerPreimage h)

/-! ### Driver constants (verify_kaspa_genesis.py:136-180, 272-296) -/

/-- The hardwired mainnet genesis hash literal. -/
def GENESIS_HASH : Bytes :=
  [88, 194, 212, 25, 158, 33, 249, 16, 209, 87, 29, 17, 73, 105, 206, 206,
   244, 143, 9, 249, 52, 212, 44, 203, 106, 40, 26, 21, 134, 143, 41, 153]

/-- The genesis coinbase payload literal (`genesis_tx_payload`,
204 bytes: blue score, subsidy, script version, varint, OP-FALSE,
Hebrew text, Bitcoin block hash, checkpoint block hash). -/
def genesis_tx_payload : Bytes :=
  [0, 0, 0, 0, 0, 0, 0, 0, 0, 225, 245, 5,
   0, 0, 0, 0, 0, 0, 1, 0, 215, 149, 215, 158,
   215, 148, 32, 215, 147, 215, 153, 32, 215, 162, 215, 156,
   215, 153, 215, 154, 32, 215, 149, 215, 162, 215, 156, 32,
   215, 144, 215, 151, 215, 153, 215, 154, 32, 215, 153, 215,
   153, 215, 152, 215, 145, 32, 215, 145, 215, 169, 215, 144,
   215, 168, 32, 215, 155, 215, 161, 215, 164, 215, 144, 32,
   215, 149, 215, 147, 215, 148, 215, 145, 215, 148, 32, 215,
   156, 215, 158, 215, 162, 215, 145, 215, 147, 32, 215, 155,
   215, 168, 215, 162, 215, 149, 215, 170, 32, 215, 144, 215,
   156, 215, 148, 215, 155, 215, 157, 32, 215, 170, 215, 162,
   215, 145, 215, 147, 215, 149, 215, 159, 0, 0, 0, 0,
   0, 0, 0, 0, 0, 11, 31, 142, 28, 23, 176, 19,
   61, 67, 145, 116, 229, 46, 251, 176, 196, 28, 53, 131,
   168, 170, 102, 176, 15, 202, 55, 202, 102, 124, 45, 85,
   10, 108, 68, 22, 218, 217, 113, 126, 80, 146, 113, 40,
   196, 36, 250, 78, 219, 235, 196, 54, 171, 19, 174, 239]

/-- The checkpoint block hash literal (verify_kaspa_genesis.py:273). -/
def CHECKPOINT_HASH : Bytes :=
  [15, 202, 55, 202, 102, 124, 45, 85, 10, 108, 68, 22, 218, 217, 113, 126,
   80, 146, 113, 40, 196, 36, 250, 78, 219, 235, 196, 54, 171, 19, 174, 239]

/-- The original (pre-checkpoint) genesis hash literal (line 274). -/
def ORIGINAL_GENESIS_HASH : Bytes :=
  [202, 235, 151, 150, 10, 22, 12, 33, 26, 107, 33, 150, 189, 120, 57, 159,
   212, 196, 204, 91, 80, 159, 85, 193, 44, 138, 125, 129, 95, 117, 54, 234]

/-- The empty-MuHash constant (line 296). -/
def EMPTY_MUHASH : Bytes :=
  [84, 78, 179, 20, 44, 0, 15, 10, 210, 199, 106, 196, 31, 66, 34, 171,
   186, 186, 190, 216, 48, 238, 175, 238, 75, 109, 197, 107, 82, 213, 202, 192]

/-- The synthetic genesis coinbase transaction built by the driver
(verify_kaspa_genesis.py:211-220). -/
def genesis_coinbase_tx : Transaction :=
  { version := 0
    inputs := []
    outputs := []
    lockTime := 0
    subnetworkId := 1 :: List.replicate 19 0
    gas := 0
    payload := genesis_tx_payload }

/-! ### Chain walker (`assert_cryptographic_hash_chain_to_genesis`,
verify_kaspa_genesis.py:93-118)

The Python function prints an error message and returns `False` on
failure; the result type below records which message was printed.
Recursion is by a structural `fuel` argument alongside the source's step
counter `i`; `fuelExhausted` is a termination device only and is proved
unreachable from the entry point (`walkAux_ne_fuelExhausted`). -/

/-- Outcome of a chain walk. -/
inductive WalkResult where
  | success (steps : Nat)
  | headerNotFound (h : Bytes)
  | hashMismatch (h : Bytes)
  | tooLong
  | fuelExhausted
  deriving DecidableEq, Repr

/-- One loop of the walker, generic in the header-hash function `hf`
(the source calls the global `header_hash`; `assert_cryptographic_hash_chain_to_genesis`
instantiates `hf` with it). -/
def walkAux (get : Bytes → Option Header) (hf : Header → Bytes) (genesis : Bytes) :
    Nat → Bytes → Nat → WalkResult
  | fuel, h, i =>
    if h = genesis then .success i
    else
      match get h with
      | none => .headerNotFound h
      | some hdr =>
        if hf hdr ≠ h then .hashMismatch h
        else if i + 1 > 1000 then .tooLong
        else
          match fuel with
          | f + 1 => walkAux get hf genesis f hdr.pruningPoint (i + 1)
          | 0 => .fuelExhausted

/-- The list of `(key, header)` pairs fetched during a walk, mirroring
`walkAux` step for step. -/
def walkTraceAux (get : Bytes → Option Header) (hf : Header → Bytes) (genesis : Bytes) :
    Nat → Bytes → Nat → List (Bytes × Header)
  | fuel, h, i =>
    if h = genesis then []
    else
      match get h with
      | none => []
      | some hdr =>
        (h, hdr) ::
          (if hf hdr ≠ h then []
           else if i + 1 > 1000 then []
           else
             match fuel with
             | f + 1 => walkTraceAux get hf genesis f hdr.pruningPoint (i + 1)
             | 0 => [])

/-- `assert_cryptographic_hash_chain_to_genesis(store, block_hash, genesis_hash)`:
walk from `start`, following pruning points, until `genesis` is reached.
Initial fuel 1001 covers the source's 1000-step bound. -/
def assert_cryptographic_hash_chain_to_genesis
    (get : Bytes → Option Header) (start genesis : Bytes) : WalkResult :=
  walkAux get header_hash genesis 1001 start 0

/-- The trace of the headers fetched by
`assert_cryptographic_hash_chain_to_genesis`. -/
def chainWalkTrace (get : Bytes → Option Header) (start genesis : Bytes) :
    List (Bytes × Header) :=
  walkTraceAux get header_hash genesis 1001 start 0

end KaspaGenesis

namespace KaspaGenesis

/-! ### Rust-store header decoder
(`deserialize_bincode_header`, store_rust.py:188-305)

Byte-precise model of the Python parser.  32- and 24-byte fields are read
with Python slices (`sliceN`, silently truncating at the end of the
buffer); fixed-width integers go through `struct.unpack` (`readU`, which
fails when fewer bytes remain: the raised `struct.error` is caught by the
function's `except` and turned into `None`). -/

/-- Inner loop of the parents parser: `count` 32-byte slices starting at
`pos` (slices never fail in Python, so this is total). -/
def readInner (data : Bytes) : Nat → Nat → List Bytes
  | _, 0 => []
  | pos, k + 1 => sliceN 32 data pos :: readInner data (pos + 32) k

/-- Outer loop of the parents parser: for each of `k` levels, a u64 inner
count then that many 32-byte hashes.  Returns the levels and the cursor
position after them. -/
def readParents (data : Bytes) : Nat → Nat → Option (List (List Bytes) × Nat)
  | pos, 0 => some ([], pos)
  | pos, k + 1 =>
    match readU 8 data pos with
    | none => none
    | some innerLen =>
      match readParents data (pos + 8 + 32 * innerLen) k with
      | none => none
      | some (rest, pos') => some (readInner data (pos + 8) innerLen :: rest, pos')

/-- `deserialize_bincode_header(data)`: `None` for inputs shorter than 100
bytes, otherwise the field-by-field parse.  The leading 32-byte self-hash
field is skipped (the Python code reads it into a local that does not
reach the returned `HeaderData`). -/
def deserialize_bincode_header (data : Bytes) : Option Header :=
  if data.length < 100 then none
  else
    match readU 2 data 32 with
    | none => none
    | some version =>
      match readU 8 data 34 with
      | none => none
      | some outerLen =>
        match readParents data 42 outerLen with
        | none => none
        | some (parents, pos) =>
          let hashMerkleRoot := sliceN 32 data pos
          let acceptedIDMerkleRoot := sliceN 32 data (pos + 32)
          let utxoCommitment := sliceN 32 data (pos + 64)
          match readU 8 data (pos + 96) with
          | none => none
          | some timestamp =>
            match readU 4 data (pos + 104) with
            | none => none
            | some bits =>
              match readU 8 data (pos + 108) with
              | none => none
              | some nonce =>
                match readU 8 data (pos + 116) with
                | none => none
                | some daaScore =>
                  let blueWork := sliceN 24 data (pos + 124)
                  match readU 8 data (pos + 148) with
                  | none => none
                  | some blueScore =>
                    some { version := version, parents := parents,
                           hashMerkleRoot := hashMerkleRoot,
                           acceptedIDMerkleRoot := acceptedIDMerkleRoot,
                           utxoCommitment := utxoCommitment,
                           timeInMilliseconds := timestamp, bits := bits,
                           nonce := nonce, daaScore := daaScore,
                           blueScore := blueScore, blueWork := blueWork,
                           pruningPoint := sliceN 32 data (pos + 156) }

/-- Wrapper for the Python call sites that may pass `None`: the guard
`if not data` maps `None` (and the empty string, via the same branch)
to `None`. -/
def deserialize_bincode_header_opt : Option Bytes → Option Header
  | none => none
  | some d => deserialize_bincode_header d

/-! ### Store accessors (store_rust.py:307-614)

The database is modelled as a partial map from key bytes to value bytes;
`_build_key` prepends the registry prefix byte (HEADERS = 8,
HEADERS_SELECTED_TIP = 7, TIPS = 24, PRUNING_POINT = 13).  The
`db_available = False` fallback paths return the same values as a miss
on an empty map, so availability is not modelled separately. -/

/-- A key-value database (`self.db.get`). -/
abbrev Db := Bytes → Option Bytes

/-- The header object produced by `get_raw_header`'s `RawHeader` fallback
when bincode deserialization fails: all fields default. -/
def fallbackHeader : Header :=
  { version := 0, parents := [], hashMerkleRoot := [],
    acceptedIDMerkleRoot := [], utxoCommitment := [],
    timeInMilliseconds := 0, bits := 0, nonce := 0, daaScore := 0,
    blueScore := 0, blueWork := [], pruningPoint := [] }

/-- `Store.get_raw_header` (store_rust.py:392-450): look the header up
under prefix 8, deserialize, and fall back to the default-field
`RawHeader` object when deserialization returns `None`. -/
def Store.get_raw_header (db : Db) (block_hash : Bytes) : Option Header :=
  match db (8 :: block_hash) with
  | none => none
  | some header_bytes =>
    match deserialize_bincode_header header_bytes with
    | some hd => some hd
    | none => some fallbackHeader

/-- Tips vector parse loop (store_rust.py:515-521): read `count` 32-byte
hashes from `pos`, stopping early (`break`) when fewer than 32 bytes
remain. -/
def parseTips (tv : Bytes) : Nat → Nat → List Bytes
  | _, 0 => []
  | pos, k + 1 =>
    if pos + 32 ≤ tv.length then sliceN 32 tv pos :: parseTips tv (pos + 32) k
    else []

/-- `Store.tips` (store_rust.py:478-528).  The selected tip defaults to
the 32-byte zero hash when its record is missing; the tips list parses
only when the TIPS record is present and at least 8 bytes long.  (The
`except` fallback in the source is unreachable: every operation in the
guarded block is total once `len(tips_bytes) >= 8`.) -/
def Store.tips (db : Db) : List Bytes × Bytes :=
  let hst_hash : Bytes :=
    match db [7] with
    | none => List.replicate 32 0
    | some v => if 32 ≤ v.length then v.take 32 else v
  match db [24] with
  | none => ([], hst_hash)
  | some tv =>
    if 8 ≤ tv.length then (parseTips tv 8 (leNat (tv.take 8)), hst_hash)
    else ([], hst_hash)

/-- `Store.pruning_point` (store_rust.py:530-546): the first 32 bytes of
the PRUNING_POINT record, or the empty byte string when it is missing. -/
def Store.pruning_point (db : Db) : Bytes :=
  match db [13] with
  | none => []
  | some v => if 32 ≤ v.length then v.take 32 else v

/-- In-memory state of a `Store`: the database handle plus the
`self.headers` cache dictionary (modelled as an association list with
most recent insertion first). -/
structure StoreState where
  db : Db
  headers : List (Bytes × Header)

/-- Dictionary lookup in the header cache. -/
def lookupCache : List (Bytes × Header) → Bytes → Option Header
  | [], _ => none
  | (k, v) :: rest, h => if k = h then some v else lookupCache rest h

/-- `Store.get_header_data` (store_rust.py:548-584): serve from the cache
when present; otherwise fetch the raw header, cache the resulting header
value (the parsed `header_data` for a successful bincode parse, or the
`HeaderData` rebuilt from the `RawHeader` fallback's default fields,
which is `fallbackHeader` itself), and return it. -/
def Store.get_header_data (s : StoreState) (block_hash : Bytes) :
    Option Header × StoreState :=
  match lookupCache s.headers block_hash with
  | some hd => (some hd, s)
  | none =>
    match Store.get_raw_header s.db block_hash with
    | none => (none, s)
    | some hd => (some hd, { s with headers := (block_hash, hd) :: s.headers })

end KaspaGenesis

namespace KaspaGenesis

/-! ### Verification driver (`verify_genesis`, verify_kaspa_genesis.py:120-336)

Modelled from the point after the stores open: the current store is a
`Db`, the optional checkpoint JSON snapshot is an `Option` of a direct
hash-to-header map (`CheckpointStore.get_raw_header` is a dictionary
lookup).  The function returns the Python function's boolean result
(`True` ↦ exit 0, `False` ↦ exit 1).

`verifyGenesisWith` is generic in the two hash functions so that
control-flow properties can be witnessed on concrete data;
`verify_genesis` instantiates them with the real `header_hash` and
`transaction_hash` exactly as the source does. -/

/-- Whether every check of the phase-7 (pre-checkpoint) block passes,
i.e. whether the block prints no `print_error` line
(verify_kaspa_genesis.py:276-304).  Both the UTXO-commitment comparison
and the checkpoint walk run unconditionally in the source, so their
conjunction captures "no error printed".  When the walk succeeds but the
original-genesis header is absent, the source prints nothing, which
counts as a pass here. -/
def phase7Checks (hh : Header → Bytes) (cps : Bytes → Option Header)
    (genesis_header : Header) : Bool :=
  match cps CHECKPOINT_HASH with
  | none => false
  | some checkpoint_header =>
    decide (genesis_header.utxoCommitment = checkpoint_header.utxoCommitment) &&
    (match walkAux cps hh ORIGINAL_GENESIS_HASH 1001 CHECKPOINT_HASH 0 with
     | .success _ =>
       match cps ORIGINAL_GENESIS_HASH with
       | some og => decide (og.utxoCommitment = EMPTY_MUHASH)
       | none => true
     | _ => false)

/-- The driver body, generic in the hash functions.  Steps 1-5 mirror the
source's early `return False` paths; step 6 is informational; step 7
computes its checks but — exactly as in the source, where the phase-7
branch only prints — the computed value does not influence the result. -/
def verifyGenesisWith (hh : Header → Bytes) (th : Transaction → Bytes)
    (db : Db) (snapshot : Option (Bytes → Option Header)) : Bool :=
  let tp := Store.tips db
  match Store.get_raw_header db GENESIS_HASH with
  | none => false
  | some genesis_header =>
    if hh genesis_header ≠ GENESIS_HASH then false
    else if th genesis_coinbase_tx ≠ genesis_header.hashMerkleRoot then false
    else
      let chain_tip := match tp.1 with
        | t :: _ => t
        | [] => tp.2
      if chain_tip = ([] : Bytes) then false
      else
        match walkAux (Store.get_raw_header db) hh GENESIS_HASH 1001 chain_tip 0 with
        | .success _ =>
          match snapshot with
          | some cps =>
            let _ := phase7Checks hh cps genesis_header
            true
          | none => true
        | _ => false

/-- `verify_genesis` with the real hash functions. -/
def verify_genesis (db : Db) (snapshot : Option (Bytes → Option Header)) : Bool :=
  verifyGenesisWith header_hash transaction_hash db snapshot

end KaspaGenesis

namespace KaspaGenesis

/-! ### Basic lemmas about the byte primitives -/

theorem toLE_length (w x : Nat) : (toLE w x).length = w := by
  simp [toLE]

theorem leNat_nil : leNat [] = 0 := rfl

theorem leNat_cons (b : Nat) (t : Bytes) : leNat (b :: t) = b + 256 * leNat t := rfl

theorem leNat_append (a b : Bytes) :
    leNat (a ++ b) = leNat a + 256 ^ a.length * leNat b := by
  induction a with
  | nil => simp [leNat_nil]
  | cons x t ih =>
    simp only [List.cons_append, leNat_cons, ih, List.length_cons, pow_succ]
    ring

theorem leNat_toLE (w x : Nat) : leNat (toLE w x) = x % 256 ^ w := by
  induction w with
  | zero => simp [toLE, leNat_nil, Nat.mod_one]
  | succ w ih =>
    have hsplit : toLE (w + 1) x = toLE w x ++ [x / 256 ^ w % 256] := by
      simp [toLE, List.range_succ]
    rw [hsplit, leNat_append, ih, toLE_length]
    have : leNat [x / 256 ^ w % 256] = x / 256 ^ w % 256 := by
      simp [leNat_cons, leNat_nil]
    rw [this, pow_succ, Nat.mod_mul]

theorem sliceN_length (n : Nat) (data : Bytes) (pos : Nat) :
    (sliceN n data pos).length = min n (data.length - pos) := by
  simp [sliceN]

theorem sliceN_append (n : Nat) (a b : Bytes) (pos : Nat)
    (h : pos + n ≤ a.length) :
    sliceN n (a ++ b) pos = sliceN n a pos := by
  unfold sliceN
  rw [List.drop_append_of_le_length (by omega)]
  rw [List.take_append_of_le_length (by simp [List.length_drop]; omega)]

theorem readU_bound {n : Nat} {data : Bytes} {pos v : Nat}
    (h : readU n data pos = some v) : pos + n ≤ data.length := by
  by_cases hle : pos + n ≤ data.length
  · exact hle
  · simp [readU, hle] at h

theorem readU_append (n : Nat) (a b : Bytes) (pos : Nat)
    (h : pos + n ≤ a.length) :
    readU n (a ++ b) pos = readU n a pos := by
  unfold readU
  rw [if_pos (by simp; omega), if_pos h, sliceN_append n a b pos h]

/-! ### Output length of BLAKE2b -/

theorem wordsToBytes_length (ws : List Nat) :
    (wordsToBytes ws).length = 8 * ws.length := by
  induction ws with
  | nil => simp [wordsToBytes]
  | cons w t ih => simp [wordsToBytes, ih, toLE_length]; ring

theorem compress_length (h : List Nat) (block : Bytes) (t : Nat) (f : Bool) :
    (compress h block t f).length = 8 := by
  simp [compress]

theorem processBlocks_length (tFinal : Nat) (bs : List Bytes)
    (hne : bs ≠ []) : ∀ h tAcc, (processBlocks tFinal h tAcc bs).length = 8 := by
  induction bs with
  | nil => exact absurd rfl hne
  | cons b rest ih =>
    intro h tAcc
    cases rest with
    | nil => simp [processBlocks, compress_length]
    | cons b' bs' =>
      rw [processBlocks]
      exact ih (by simp) _ _

theorem blake2b_length (key data : Bytes) : (blake2b 32 key data).length = 32 := by
  have hout : ∀ h : List Nat, h.length = 8 →
      ((wordsToBytes h).take 32).length = 32 := by
    intro h h8
    rw [List.length_take, wordsToBytes_length, h8]
    norm_num
  unfold blake2b
  by_cases hk : key.length = 0 <;> by_cases hd : data.length = 0 <;>
      simp only [hk, hd, if_true, if_false, if_pos, if_neg, reduceIte]
  · exact hout _ (compress_length _ _ _ _)
  · have hpos : 0 < (data.length + 127) / 128 := by
      exact Nat.div_pos (by omega) (by norm_num)
    obtain ⟨m, hm⟩ : ∃ m, (data.length + 127) / 128 = m + 1 :=
      ⟨_, (Nat.succ_pred_eq_of_pos hpos).symm⟩
    rw [hm]
    exact hout _ (processBlocks_length _ _ (by simp [takeBlocks]) _ _)
  · exact hout _ (compress_length _ _ _ _)
  · have hpos : 0 < (data.length + 127) / 128 := by
      exact Nat.div_pos (by omega) (by norm_num)
    obtain ⟨m, hm⟩ : ∃ m, (data.length + 127) / 128 = m + 1 :=
      ⟨_, (Nat.succ_pred_eq_of_pos hpos).symm⟩
    rw [hm]
    exact hout _ (processBlocks_length _ _ (by simp [takeBlocks]) _ _)

theorem header_hash_length (h : Header) : (header_hash h).length = 32 :=
  blake2b_length _ _

theorem transaction_hash_length (t : Transaction) :
    (transaction_hash t).length = 32 :=
  blake2b_length _ _

end KaspaGenesis

namespace KaspaGenesis

/-! ### Walker lemmas: single-step unfoldings and global invariants -/

theorem walkAux_genesis (get : Bytes → Option Header) (hf : Header → Bytes)
    (gen : Bytes) (fuel i : Nat) :
    walkAux get hf gen fuel gen i = .success i := by
  rw [walkAux]; simp

theorem walkAux_notFound (get : Bytes → Option Header) (hf : Header → Bytes)
    {gen h : Bytes} (fuel i : Nat) (hgen : h ≠ gen) (hget : get h = none) :
    walkAux get hf gen fuel h i = .headerNotFound h := by
  rw [walkAux]; simp [hgen, hget]

theorem walkAux_mismatch (get : Bytes → Option Header) (hf : Header → Bytes)
    {gen h : Bytes} {hdr : Header} (fuel i : Nat)
    (hgen : h ≠ gen) (hget : get h = some hdr) (hmm : hf hdr ≠ h) :
    walkAux get hf gen fuel h i = .hashMismatch h := by
  rw [walkAux]; simp [hgen, hget, hmm]

theorem walkAux_tooLong (get : Bytes → Option Header) (hf : Header → Bytes)
    {gen h : Bytes} {hdr : Header} (fuel : Nat) {i : Nat}
    (hgen : h ≠ gen) (hget : get h = some hdr) (hok : hf hdr = h)
    (hbound : i + 1 > 1000) :
    walkAux get hf gen fuel h i = .tooLong := by
  rw [walkAux]; simp [hgen, hget, hok, hbound]

theorem walkAux_step (get : Bytes → Option Header) (hf : Header → Bytes)
    {gen h : Bytes} {hdr : Header} (f : Nat) {i : Nat}
    (hgen : h ≠ gen) (hget : get h = some hdr) (hok : hf hdr = h)
    (hbound : i + 1 ≤ 1000) :
    walkAux get hf gen (f + 1) h i = walkAux get hf gen f hdr.pruningPoint (i + 1) := by
  have hnb : ¬ (i + 1 > 1000) := by omega
  rw [walkAux]; simp [hgen, hget, hok, hnb]

/-- The `fuelExhausted` termination device is unreachable whenever the
fuel dominates the remaining step budget — in particular from the entry
point `fuel = 1001, i = 0`. -/
theorem walkAux_ne_fuelExhausted (get : Bytes → Option Header) (hf : Header → Bytes)
    (gen : Bytes) : ∀ fuel i h, 1001 ≤ fuel + i →
    walkAux get hf gen fuel h i ≠ .fuelExhausted := by
  intro fuel
  induction fuel with
  | zero =>
    intro i h hle
    by_cases hgen : h = gen
    · subst hgen; rw [walkAux_genesis]; simp
    · cases hget : get h with
      | none => rw [walkAux_notFound get hf _ _ hgen hget]; simp
      | some hdr =>
        by_cases hok : hf hdr = h
        · rw [walkAux_tooLong get hf _ hgen hget hok (by omega)]; simp
        · rw [walkAux_mismatch get hf _ _ hgen hget hok]; simp
  | succ f ih =>
    intro i h hle
    by_cases hgen : h = gen
    · subst hgen; rw [walkAux_genesis]; simp
    · cases hget : get h with
      | none => rw [walkAux_notFound get hf _ _ hgen hget]; simp
      | some hdr =>
        by_cases hok : hf hdr = h
        · by_cases hbound : i + 1 > 1000
          · rw [walkAux_tooLong get hf _ hgen hget hok hbound]; simp
          · rw [walkAux_step get hf f hgen hget hok (by omega)]
            exact ih (i + 1) hdr.pruningPoint (by omega)
        · rw [walkAux_mismatch get hf _ _ hgen hget hok]; simp

/-- On success the returned step count is the counter at the moment the
target was reached: it is the initial counter or at most 1000. -/
theorem walkAux_success_bound (get : Bytes → Option Header) (hf : Header → Bytes)
    (gen : Bytes) : ∀ fuel i h n,
    walkAux get hf gen fuel h i = .success n → n = i ∨ n ≤ 1000 := by
  intro fuel
  induction fuel with
  | zero =>
    intro i h n hres
    by_cases hgen : h = gen
    · subst hgen; rw [walkAux_genesis] at hres
      exact Or.inl (WalkResult.success.inj hres).symm
    · cases hget : get h with
      | none => rw [walkAux_notFound get hf _ _ hgen hget] at hres; cases hres
      | some hdr =>
        by_cases hok : hf hdr = h
        · by_cases hbound : i + 1 > 1000
          · rw [walkAux_tooLong get hf _ hgen hget hok hbound] at hres; cases hres
          · exfalso
            rw [walkAux] at hres
            simp [hgen, hget, hok, hbound] at hres
        · rw [walkAux_mismatch get hf _ _ hgen hget hok] at hres; cases hres
  | succ f ih =>
    intro i h n hres
    by_cases hgen : h = gen
    · subst hgen; rw [walkAux_genesis] at hres
      exact Or.inl (WalkResult.success.inj hres).symm
    · cases hget : get h with
      | none => rw [walkAux_notFound get hf _ _ hgen hget] at hres; cases hres
      | some hdr =>
        by_cases hok : hf hdr = h
        · by_cases hbound : i + 1 > 1000
          · rw [walkAux_tooLong get hf _ hgen hget hok hbound] at hres; cases hres
          · rw [walkAux_step get hf f hgen hget hok (by omega)] at hres
            rcases ih (i + 1) hdr.pruningPoint n hres with hni | hbd
            · exact Or.inr (by omega)
            · exact Or.inr hbd
        · rw [walkAux_mismatch get hf _ _ hgen hget hok] at hres; cases hres

/-- On success every header recorded in the walk trace hashed back to the
key it was fetched under. -/
theorem walkAux_success_trace (get : Bytes → Option Header) (hf : Header → Bytes)
    (gen : Bytes) : ∀ fuel i h n,
    walkAux get hf gen fuel h i = .success n →
    ∀ p ∈ walkTraceAux get hf gen fuel h i, hf p.2 = p.1 := by
  intro fuel
  induction fuel with
  | zero =>
    intro i h n hres p hp
    by_cases hgen : h = gen
    · rw [walkTraceAux] at hp; simp [hgen] at hp
    · cases hget : get h with
      | none => rw [walkTraceAux] at hp; simp [hgen, hget] at hp
      | some hdr =>
        by_cases hok : hf hdr = h
        · by_cases hbound : i + 1 > 1000
          · rw [walkAux_tooLong get hf _ hgen hget hok hbound] at hres; cases hres
          · exfalso; rw [walkAux] at hres; simp [hgen, hget, hok, hbound] at hres
        · rw [walkAux_mismatch get hf _ _ hgen hget hok] at hres; cases hres
  | succ f ih =>
    intro i h n hres p hp
    by_cases hgen : h = gen
    · rw [walkTraceAux] at hp; simp [hgen] at hp
    · cases hget : get h with
      | none => rw [walkTraceAux] at hp; simp [hgen, hget] at hp
      | some hdr =>
        by_cases hok : hf hdr = h
        · by_cases hbound : i + 1 > 1000
          · rw [walkAux_tooLong get hf _ hgen hget hok hbound] at hres; cases hres
          · have hnb : ¬ (i + 1 > 1000) := hbound
            rw [walkTraceAux] at hp
            simp [hgen, hget, hok, hnb] at hp
            rw [walkAux_step get hf f hgen hget hok (by omega)] at hres
            rcases hp with hp | hp
            · rw [hp]; exact hok
            · exact ih (i + 1) hdr.pruningPoint n hres p hp
        · rw [walkAux_mismatch get hf _ _ hgen hget hok] at hres; cases hres

/-- On a hash mismatch the trace ends at the offending key: the walker
fetches nothing further. -/
theorem walkTraceAux_mismatch (get : Bytes → Option Header) (hf : Header → Bytes)
    {gen h : Bytes} {hdr : Header} (fuel i : Nat)
    (hgen : h ≠ gen) (hget : get h = some hdr) (hmm : hf hdr ≠ h) :
    walkTraceAux get hf gen fuel h i = [(h, hdr)] := by
  rw [walkTraceAux]; simp [hgen, hget, hmm]

/-- A consistent two-cycle between `A` and `B` makes the walk run out of
its step budget: with enough fuel relative to the counter the result is
`tooLong`. -/
theorem walk_cycle_tooLong (get : Bytes → Option Header) (hf : Header → Bytes)
    (gen A B : Bytes) (HA HB : Header)
    (hA : get A = some HA) (hB : get B = some HB)
    (hfa : hf HA = A) (hfb : hf HB = B)
    (hpa : HA.pruningPoint = B) (hpb : HB.pruningPoint = A)
    (hAg : A ≠ gen) (hBg : B ≠ gen) :
    ∀ fuel i, 1001 ≤ fuel + i →
    walkAux get hf gen fuel A i = .tooLong ∧ walkAux get hf gen fuel B i = .tooLong := by
  intro fuel
  induction fuel with
  | zero =>
    intro i hle
    constructor
    · exact walkAux_tooLong get hf _ hAg hA hfa (by omega)
    · exact walkAux_tooLong get hf _ hBg hB hfb (by omega)
  | succ f ih =>
    intro i hle
    by_cases hbound : i + 1 > 1000
    · exact ⟨walkAux_tooLong get hf _ hAg hA hfa hbound,
             walkAux_tooLong get hf _ hBg hB hfb hbound⟩
    · constructor
      · rw [walkAux_step get hf f hAg hA hfa (by omega), hpa]
        exact (ih (i + 1) (by omega)).2
      · rw [walkAux_step get hf f hBg hB hfb (by omega), hpb]
        exact (ih (i + 1) (by omega)).1

end KaspaGenesis

namespace KaspaGenesis

/-! ### Concrete stores used as witnesses -/

/-- The empty database. -/
def dbEmpty : Db := fun _ => none

/-- A database with only a PRUNING_POINT record (40 bytes of `7`). -/
def dbPP : Db := fun k => if k = [13] then some (List.replicate 40 7) else none

/-- A database with a TIPS record holding one tip and no selected tip. -/
def dbTipsOnly : Db :=
  fun k => if k = [24] then some (toLE 8 1 ++ List.replicate 32 1) else none

/-- A database with a one-tip TIPS record and a selected-tip record. -/
def dbTipsBoth : Db :=
  fun k =>
    if k = [24] then some (toLE 8 1 ++ List.replicate 32 1)
    else if k = [7] then some (List.replicate 32 2) else none

/-- A database holding an (undecodable) genesis header record and a
selected-tip record pointing at the genesis hash. -/
def dbGenesisOnly : Db :=
  fun k =>
    if k = 8 :: GENESIS_HASH then some [0]
    else if k = [7] then some GENESIS_HASH else none

/-! ### C7: `Store.pruning_point` -/

/-- C7 (corrected).  When the PRUNING_POINT record is absent
`Store.pruning_point` returns the empty byte string (not the all-zero
32-byte hash the claim states); when present it returns the first 32
bytes of the stored value (the whole value when shorter). -/
theorem pruning_point_cases (db : Db) :
    (db [13] = none → Store.pruning_point db = ([] : Bytes)) ∧
    (∀ v, db [13] = some v → Store.pruning_point db = v.take 32) := by
  constructor
  · intro h; simp [Store.pruning_point, h]
  · intro v h
    simp only [Store.pruning_point, h]
    by_cases h32 : 32 ≤ v.length
    · rw [if_pos h32]
    · rw [if_neg h32, List.take_of_length_le (by omega)]

/-- C7 counterexample: on a store without a PRUNING_POINT record the
accessor returns the empty byte string, which is not the all-zero
32-byte hash. -/
theorem pruning_point_absent_not_zero_hash :
    Store.pruning_point dbEmpty = ([] : Bytes) ∧
    Store.pruning_point dbEmpty ≠ List.replicate 32 0 := by
  constructor
  · rfl
  · decide

/-- C7 witness: instantiating `pruning_point_cases` on concrete stores. -/
theorem pruning_point_cases_witness :
    Store.pruning_point dbEmpty = ([] : Bytes) ∧
    Store.pruning_point dbPP = (List.replicate 40 7).take 32 :=
  ⟨(pruning_point_cases dbEmpty).1 rfl,
   (pruning_point_cases dbPP).2 (List.replicate 40 7) rfl⟩

/-! ### C9: short inputs to the header decoder -/

/-- C9.  Every input shorter than 100 bytes — including the empty string,
and `None` through the `if not data` guard modelled by
`deserialize_bincode_header_opt` — yields `None` without any field being
parsed. -/
theorem deserialize_short_input_none :
    (∀ data : Bytes, data.length < 100 → deserialize_bincode_header data = none) ∧
    deserialize_bincode_header_opt none = none := by
  constructor
  · intro data h
    unfold deserialize_bincode_header
    rw [if_pos h]
  · rfl

/-- C9 witness: the guard at 99 zero bytes and at the empty string. -/
theorem deserialize_short_input_none_witness :
    (List.replicate 99 0 : Bytes).length < 100 ∧
    deserialize_bincode_header (List.replicate 99 0) = none ∧
    deserialize_bincode_header [] = none :=
  ⟨by decide, deserialize_short_input_none.1 _ (by decide),
   deserialize_short_input_none.1 [] (by decide)⟩

/-! ### C10: caching in `Store.get_header_data` -/

/-- C10.  After a successful lookup the returned header is cached: a
second call returns the same header and the same state, and does so for
any database contents (no second database read can influence it). -/
theorem get_header_data_cached (s : StoreState) (h : Bytes) (hd : Header)
    (s' : StoreState) (hfirst : Store.get_header_data s h = (some hd, s')) :
    Store.get_header_data s' h = (some hd, s') ∧
    ∀ db2 : Db, Store.get_header_data ⟨db2, s'.headers⟩ h
      = (some hd, ⟨db2, s'.headers⟩) := by
  have hlook : lookupCache s'.headers h = some hd := by
    unfold Store.get_header_data at hfirst
    cases hcache : lookupCache s.headers h with
    | some v =>
      rw [hcache] at hfirst
      simp only [Prod.mk.injEq, Option.some.injEq] at hfirst
      obtain ⟨rfl, rfl⟩ := hfirst
      exact hcache
    | none =>
      rw [hcache] at hfirst
      cases hraw : Store.get_raw_header s.db h with
      | none => rw [hraw] at hfirst; simp at hfirst
      | some hd' =>
        rw [hraw] at hfirst
        simp only [Prod.mk.injEq, Option.some.injEq] at hfirst
        obtain ⟨rfl, rfl⟩ := hfirst
        simp [lookupCache]
  constructor
  · unfold Store.get_header_data
    rw [hlook]
  · intro db2
    unfold Store.get_header_data
    rw [show (⟨db2, s'.headers⟩ : StoreState).headers = s'.headers from rfl, hlook]

/-- The store state after the first genesis lookup on `dbGenesisOnly`. -/
def stateAfterGenesisLookup : StoreState :=
  ⟨dbGenesisOnly, [(GENESIS_HASH, fallbackHeader)]⟩

/-- C10 witness: a concrete first lookup populates the cache and the
second lookup returns the cached header unchanged. -/
theorem get_header_data_cached_witness :
    Store.get_header_data ⟨dbGenesisOnly, []⟩ GENESIS_HASH
      = (some fallbackHeader, stateAfterGenesisLookup) ∧
    Store.get_header_data stateAfterGenesisLookup GENESIS_HASH
      = (some fallbackHeader, stateAfterGenesisLookup) := by
  have h1 : Store.get_header_data ⟨dbGenesisOnly, []⟩ GENESIS_HASH
      = (some fallbackHeader, stateAfterGenesisLookup) := by
    rfl
  exact ⟨h1, (get_header_data_cached _ _ _ _ h1).1⟩

end KaspaGenesis

namespace KaspaGenesis

/-! ### C8: `Store.tips` -/

/-- A well-formed tips vector parses back to exactly its hashes. -/
theorem parseTips_exact (hashes : List Bytes) : ∀ pre : Bytes,
    (∀ x ∈ hashes, x.length = 32) →
    parseTips (pre ++ hashes.flatten) pre.length hashes.length = hashes := by
  induction hashes with
  | nil => intro pre _; rfl
  | cons x rest ih =>
    intro pre hlen
    have hx : x.length = 32 := hlen x (by simp)
    rw [List.flatten_cons, List.length_cons, parseTips]
    have hassoc : pre ++ (x ++ rest.flatten) = (pre ++ x) ++ rest.flatten := by
      rw [List.append_assoc]
    have hcond : pre.length + 32 ≤ (pre ++ (x ++ rest.flatten)).length := by
      simp [List.length_append, hx]
    rw [if_pos hcond]
    have hslice : sliceN 32 (pre ++ (x ++ rest.flatten)) pre.length = x := by
      unfold sliceN
      rw [List.drop_left, ← hx, List.take_left]
    have hrec : parseTips (pre ++ (x ++ rest.flatten)) (pre.length + 32) rest.length
        = rest := by
      have hlen' : (pre ++ x).length = pre.length + 32 := by
        simp [List.length_append, hx]
      rw [hassoc, ← hlen']
      exact ih (pre ++ x) (fun y hy => hlen y (by simp [hy]))
    rw [hslice, hrec]

/-- C8 (corrected).  The two components of `Store.tips` are independent:
the selected tip defaults to the zero hash only when its own record is
missing, and the tips list is empty only when the TIPS record is missing
(or too short); a missing HEADERS_SELECTED_TIP record does not empty the
tips list, and a missing TIPS record keeps the stored selected tip. -/
theorem tips_cases (db : Db) :
    (db [7] = none → (Store.tips db).2 = List.replicate 32 0) ∧
    (∀ v, db [7] = some v → 32 ≤ v.length → (Store.tips db).2 = v.take 32) ∧
    (db [24] = none → (Store.tips db).1 = []) ∧
    (∀ hashes : List Bytes,
      db [24] = some (toLE 8 hashes.length ++ hashes.flatten) →
      (∀ x ∈ hashes, x.length = 32) → hashes.length < 2 ^ 64 →
      (Store.tips db).1 = hashes) := by
  refine ⟨?_, ?_, ?_, ?_⟩
  · intro h7
    unfold Store.tips
    rw [h7]
    cases h24 : db [24] with
    | none => rfl
    | some tv => by_cases h8 : 8 ≤ tv.length <;> simp [h8]
  · intro v h7 h32
    cases h24 : db [24] with
    | none => simp [Store.tips, h7, h24, h32]
    | some tv => by_cases h8 : 8 ≤ tv.length <;> simp [Store.tips, h7, h24, h32, h8]
  · intro h24
    unfold Store.tips
    rw [h24]
  · intro hashes h24 hlen hcount
    have hval : 8 ≤ (toLE 8 hashes.length ++ hashes.flatten).length := by
      simp [List.length_append, toLE_length]
    have htake := List.take_left (toLE 8 hashes.length) hashes.flatten
    rw [toLE_length] at htake
    have hcnt : leNat ((toLE 8 hashes.length ++ hashes.flatten).take 8)
        = hashes.length := by
      rw [htake, leNat_toLE, Nat.mod_eq_of_lt (by exact_mod_cast hcount)]
    have hfinal := parseTips_exact hashes (toLE 8 hashes.length) hlen
    rw [toLE_length] at hfinal
    simp only [Store.tips, h24, if_pos hval]
    rw [htake, leNat_toLE, Nat.mod_eq_of_lt (by exact_mod_cast hcount)]
    exact hfinal

/-- C8 counterexample: a store whose HEADERS_SELECTED_TIP record is
missing but whose TIPS record holds one tip.  `tips()` returns that tip,
not the empty sequence the claim requires for "either record missing". -/
theorem tips_hst_missing_not_empty :
    dbTipsOnly [7] = none ∧
    Store.tips dbTipsOnly = ([List.replicate 32 1], List.replicate 32 0) ∧
    (Store.tips dbTipsOnly).1 ≠ [] := by
  refine ⟨rfl, by decide, by decide⟩

/-- C8 witness: both records present and well-formed on `dbTipsBoth`. -/
theorem tips_cases_witness :
    (Store.tips dbTipsBoth).1 = [List.replicate 32 1] ∧
    (Store.tips dbTipsBoth).2 = (List.replicate 32 2).take 32 :=
  ⟨(tips_cases dbTipsBoth).2.2.2 [List.replicate 32 1] (by decide)
      (by intro x hx; simp at hx; simp [hx]) (by norm_num),
   (tips_cases dbTipsBoth).2.1 (List.replicate 32 2) (by decide) (by decide)⟩

end KaspaGenesis

namespace KaspaGenesis

/-! ### C2: hash-chain integrity checking in the walker -/

/-- C2.  (i) If a header fetched under a non-target key hashes to
anything but that key, the walker stops there with a hash-mismatch
result and its trace ends at that key (no further header is fetched).
(ii) A successful walk implies every fetched header hashed back to the
key it was fetched under. -/
theorem walker_hash_mismatch :
    (∀ (get : Bytes → Option Header) (genesis : Bytes) (fuel i : Nat)
       (k : Bytes) (H : Header),
       k ≠ genesis → get k = some H → header_hash H ≠ k →
       walkAux get header_hash genesis fuel k i = .hashMismatch k ∧
       walkTraceAux get header_hash genesis fuel k i = [(k, H)]) ∧
    (∀ (get : Bytes → Option Header) (start genesis : Bytes) (n : Nat),
       assert_cryptographic_hash_chain_to_genesis get start genesis = .success n →
       ∀ p ∈ chainWalkTrace get start genesis, header_hash p.2 = p.1) := by
  constructor
  · intro get genesis fuel i k H hk hget hmm
    exact ⟨walkAux_mismatch get header_hash fuel i hk hget hmm,
           walkTraceAux_mismatch get header_hash fuel i hk hget hmm⟩
  · intro get start genesis n hsucc
    exact walkAux_success_trace get header_hash genesis 1001 0 start n hsucc

/-- A store holding a single header under key `[5]` whose recomputed hash
cannot equal `[5]` (digests are 32 bytes long). -/
def getMismatch : Bytes → Option Header :=
  fun k => if k = [5] then some fallbackHeader else none

/-- C2 witness: the walker halts with a mismatch on `getMismatch`, and a
trivially successful walk has an (empty) fully-consistent trace. -/
theorem walker_hash_mismatch_witness :
    walkAux getMismatch header_hash [] 1001 [5] 0 = .hashMismatch [5] ∧
    walkTraceAux getMismatch header_hash [] 1001 [5] 0 = [([5], fallbackHeader)] ∧
    (∀ p ∈ chainWalkTrace getMismatch [] [], header_hash p.2 = p.1) := by
  have hmm : header_hash fallbackHeader ≠ [5] := by
    intro hEq
    have hl := congrArg List.length hEq
    rw [header_hash_length] at hl
    simp at hl
  have h1 := walker_hash_mismatch.1 getMismatch [] 1001 0 [5] fallbackHeader
    (by simp) (by simp [getMismatch]) hmm
  have h2 := walker_hash_mismatch.2 getMismatch [] [] 0 rfl
  exact ⟨h1.1, h1.2, h2⟩

/-! ### C5: termination and the 1000-step bound -/

/-- C5.  (i) The entry-point walk never runs out of fuel (the structural
termination device): the step bound always decides first.  (ii) A
successful walk took at most 1000 pruning-point steps.  (iii) As soon as
the incremented counter exceeds 1000 the walk fails with `tooLong`.
(iv) A consistent two-cycle `A ↔ B` is rejected with `tooLong`. -/
theorem chain_walk_bounded :
    (∀ (get : Bytes → Option Header) (hf : Header → Bytes) (gen start : Bytes),
       walkAux get hf gen 1001 start 0 ≠ .fuelExhausted) ∧
    (∀ (get : Bytes → Option Header) (start gen : Bytes) (n : Nat),
       assert_cryptographic_hash_chain_to_genesis get start gen = .success n →
       n ≤ 1000) ∧
    (∀ (get : Bytes → Option Header) (hf : Header → Bytes) (gen : Bytes)
       (fuel i : Nat) (h : Bytes) (hdr : Header),
       h ≠ gen → get h = some hdr → hf hdr = h → i + 1 > 1000 →
       walkAux get hf gen fuel h i = .tooLong) ∧
    (∀ (get : Bytes → Option Header) (hf : Header → Bytes) (gen A B : Bytes)
       (HA HB : Header),
       get A = some HA → get B = some HB → hf HA = A → hf HB = B →
       HA.pruningPoint = B → HB.pruningPoint = A → A ≠ gen → B ≠ gen →
       walkAux get hf gen 1001 A 0 = .tooLong) := by
  refine ⟨?_, ?_, ?_, ?_⟩
  · intro get hf gen start
    exact walkAux_ne_fuelExhausted get hf gen 1001 0 start (by omega)
  · intro get start gen n hsucc
    rcases walkAux_success_bound get header_hash gen 1001 0 start n hsucc with rfl | h
    · omega
    · exact h
  · intro get hf gen fuel i h hdr hgen hget hok hbound
    exact walkAux_tooLong get hf fuel hgen hget hok hbound
  · intro get hf gen A B HA HB hA hB hfa hfb hpa hpb hAg hBg
    exact (walk_cycle_tooLong get hf gen A B HA HB hA hB hfa hfb hpa hpb hAg hBg
      1001 0 (by omega)).1

/-- Header `A` of the crafted two-cycle: its pruning point names `B`. -/
def cycleHeaderA : Header := { fallbackHeader with pruningPoint := [2] }

/-- Header `B` of the crafted two-cycle: its pruning point names `A`. -/
def cycleHeaderB : Header := { fallbackHeader with pruningPoint := [1] }

/-- The two-header store of the crafted cycle (`A = [1]`, `B = [2]`). -/
def getCycle : Bytes → Option Header :=
  fun k => if k = [1] then some cycleHeaderA else if k = [2] then some cycleHeaderB else none

/-- A hash function under which both cycle headers are consistent with
their keys. -/
def hfCycle : Header → Bytes :=
  fun H => if H.pruningPoint = [2] then [1] else [2]

/-- C5 witness: the bound fires on the concrete two-cycle, a trivial walk
succeeds within the bound, and a walk standing at counter 1000 fails. -/
theorem chain_walk_bounded_witness :
    walkAux getCycle hfCycle [] 1001 [1] 0 = .tooLong ∧
    assert_cryptographic_hash_chain_to_genesis getCycle [] [] = .success 0 ∧
    (0 : Nat) ≤ 1000 ∧
    walkAux getCycle hfCycle [] 7 [1] 1000 = .tooLong := by
  refine ⟨?_, rfl, ?_, ?_⟩
  · exact chain_walk_bounded.2.2.2 getCycle hfCycle [] [1] [2] cycleHeaderA cycleHeaderB
      (by simp [getCycle]) (by simp [getCycle, cycleHeaderB]) (by decide) (by decide)
      (by decide) (by decide) (by simp) (by simp)
  · exact chain_walk_bounded.2.1 getCycle [] [] 0 rfl
  · exact chain_walk_bounded.2.2.1 getCycle hfCycle [] 7 1000 [1] cycleHeaderA
      (by simp) (by simp [getCycle]) (by decide) (by omega)

/-! ### C3: the header-hash preimage -/

/-- The header-hash preimage as the specification words it: u16 version,
u64 level count, per level a u64 inner count and the parent hashes, the
three roots, u64 timestamp, u32 bits, u64 nonce, u64 DAA score, u64 blue
score, the literal u64 length 24 of blue work, the 24 blue-work bytes,
and the pruning point last. -/
def specHeaderPreimage (h : Header) : Bytes :=
  toLE 2 h.version ++ toLE 8 h.parents.length
    ++ (h.parents.map (fun lvl => toLE 8 lvl.length ++ lvl.flatten)).flatten
    ++ h.hashMerkleRoot ++ h.acceptedIDMerkleRoot ++ h.utxoCommitment
    ++ toLE 8 h.timeInMilliseconds ++ toLE 4 h.bits ++ toLE 8 h.nonce
    ++ toLE 8 h.daaScore ++ toLE 8 h.blueScore ++ toLE 8 24
    ++ h.blueWork ++ h.pruningPoint

/-- C3.  For every header whose blue-work field has its invariant length
24, `header_hash` is the keyed 32-byte BLAKE2b digest (key "BlockHash")
of exactly the byte sequence the claim lists, pruning point last. -/
theorem header_hash_matches_spec (h : Header) (hbw : h.blueWork.length = 24) :
    header_hash h = blake2b 32 (strBytes "BlockHash") (specHeaderPreimage h) := by
  unfold header_hash headerPreimage specHeaderPreimage levelBytes
  rw [hbw]

/-- A sample header with a 24-byte blue-work field. -/
def sampleHeader : Header := { fallbackHeader with blueWork := List.replicate 24 0 }

/-- C3 witness: the preimage law at the sample header. -/
theorem header_hash_matches_spec_witness :
    sampleHeader.blueWork.length = 24 ∧
    header_hash sampleHeader
      = blake2b 32 (strBytes "BlockHash") (specHeaderPreimage sampleHeader) :=
  ⟨by decide, header_hash_matches_spec sampleHeader (by decide)⟩

end KaspaGenesis

namespace KaspaGenesis

/-! ### C4: the genesis coinbase check -/

/-- The genesis-coinbase hash preimage as the claim words it: version,
input count, output count, lockTime, subnetwork id, gas, payload length,
payload — with the payload's actual length, 204. -/
def specCoinbasePreimage : Bytes :=
  toLE 2 0 ++ toLE 8 0 ++ toLE 8 0 ++ toLE 8 0 ++ (1 :: List.replicate 19 0)
    ++ toLE 8 0 ++ toLE 8 204 ++ genesis_tx_payload

set_option maxRecDepth 4000 in
/-- C4 counterexample: the payload literal is 204 bytes long, not the 176
bytes the claim states. -/
theorem genesis_payload_not_176 :
    genesis_coinbase_tx.payload.length = 204 ∧
    genesis_coinbase_tx.payload.length ≠ 176 := by
  constructor <;> decide

/-- C4 (corrected).  The driver builds the synthetic coinbase (empty
inputs and outputs, version 0, lockTime 0, gas 0, subnetwork id `01` then
19 zeros, payload the 204-byte literal), its `transaction_hash` is the
keyed BLAKE2b-256 (key "TransactionHash") of the claimed field sequence,
and whenever that digest differs from the genesis header's merkle root
the driver returns failure. -/
theorem genesis_coinbase_check :
    genesis_coinbase_tx.version = 0 ∧ genesis_coinbase_tx.inputs = [] ∧
    genesis_coinbase_tx.outputs = [] ∧ genesis_coinbase_tx.lockTime = 0 ∧
    genesis_coinbase_tx.gas = 0 ∧
    genesis_coinbase_tx.subnetworkId = 1 :: List.replicate 19 0 ∧
    genesis_coinbase_tx.payload = genesis_tx_payload ∧
    transaction_hash genesis_coinbase_tx
      = blake2b 32 (strBytes "TransactionHash") specCoinbasePreimage ∧
    (∀ (hh : Header → Bytes) (th : Transaction → Bytes) (db : Db)
       (snapshot : Option (Bytes → Option Header)) (gh : Header),
       Store.get_raw_header db GENESIS_HASH = some gh →
       th genesis_coinbase_tx ≠ gh.hashMerkleRoot →
       verifyGenesisWith hh th db snapshot = false) := by
  refine ⟨rfl, rfl, rfl, rfl, rfl, rfl, rfl, rfl, ?_⟩
  intro hh th db snapshot gh hget hne
  unfold verifyGenesisWith
  rw [hget]
  by_cases hgh : hh gh = GENESIS_HASH
  · simp [hgh, hne]
  · simp [hgh]

/-- C4 witness: on a store whose genesis record decodes to the fallback
header (empty merkle root) and a transaction hash returning `[0]`, the
driver fails. -/
theorem genesis_coinbase_check_witness :
    Store.get_raw_header dbGenesisOnly GENESIS_HASH = some fallbackHeader ∧
    verifyGenesisWith (fun _ => GENESIS_HASH) (fun _ => [0]) dbGenesisOnly none
      = false :=
  ⟨rfl, genesis_coinbase_check.2.2.2.2.2.2.2.2 (fun _ => GENESIS_HASH) (fun _ => [0])
    dbGenesisOnly none fallbackHeader rfl (by decide)⟩

/-! ### C1: phase-7 failures do not abort the driver -/

/-- C1 (code bug).  With a snapshot provided whose checkpoint header is
missing — one of the phase-7 failure cases the claim enumerates, and
`phase7Checks` is `false` accordingly — the driver still returns `true`
(exit 0): the phase-7 block of the source only prints its errors and
never feeds them into the result, while every path that passes phases
1-5 falls through to `return True`. -/
theorem phase7_failure_not_fatal :
    phase7Checks (fun _ => GENESIS_HASH) (fun _ => none) fallbackHeader = false ∧
    verifyGenesisWith (fun _ => GENESIS_HASH) (fun _ => ([] : Bytes)) dbGenesisOnly
      (some (fun _ => none)) = true := by
  constructor
  · rfl
  · decide

end KaspaGenesis

namespace KaspaGenesis

/-! ### C6: bounds behaviour of the header decoder -/

/-- Encoded size of a parsed parents structure: 8 count bytes plus
32 bytes per hash, per level. -/
def parentsSize (ls : List (List Bytes)) : Nat :=
  (ls.map (fun lvl => 8 + 32 * lvl.length)).sum

theorem readInner_length (data : Bytes) :
    ∀ k pos, (readInner data pos k).length = k := by
  intro k
  induction k with
  | zero => intro pos; rfl
  | succ k ih => intro pos; simp [readInner, ih]

theorem readParents_pos (data : Bytes) :
    ∀ k pos ls pos', readParents data pos k = some (ls, pos') →
    pos' = pos + parentsSize ls ∧ ls.length = k := by
  intro k
  induction k with
  | zero =>
    intro pos ls pos' hp
    rw [readParents] at hp
    simp only [Option.some.injEq, Prod.mk.injEq] at hp
    obtain ⟨rfl, rfl⟩ := hp
    simp [parentsSize]
  | succ k ih =>
    intro pos ls pos' hp
    rw [readParents] at hp
    cases hc : readU 8 data pos with
    | none => rw [hc] at hp; cases hp
    | some c =>
      rw [hc] at hp
      dsimp only [] at hp
      cases hrec : readParents data (pos + 8 + 32 * c) k with
      | none => rw [hrec] at hp; cases hp
      | some pr =>
        obtain ⟨rest, p'⟩ := pr
        rw [hrec] at hp
        dsimp only [] at hp
        simp only [Option.some.injEq, Prod.mk.injEq] at hp
        obtain ⟨rfl, rfl⟩ := hp
        obtain ⟨hpos, hlen⟩ := ih (pos + 8 + 32 * c) rest p' hrec
        constructor
        · rw [hpos]
          simp [parentsSize, readInner_length]
          ring
        · simp [hlen]

theorem readInner_append (a b : Bytes) :
    ∀ k pos, pos + 32 * k ≤ a.length →
    readInner (a ++ b) pos k = readInner a pos k := by
  intro k
  induction k with
  | zero => intro pos _; rfl
  | succ k ih =>
    intro pos hle
    rw [readInner, readInner, sliceN_append 32 a b pos (by omega),
      ih (pos + 32) (by omega)]

theorem readParents_append (a b : Bytes) :
    ∀ k pos ls pos', readParents a pos k = some (ls, pos') →
    pos' ≤ a.length → readParents (a ++ b) pos k = some (ls, pos') := by
  intro k
  induction k with
  | zero =>
    intro pos ls pos' hp _
    rw [readParents] at hp ⊢
    exact hp
  | succ k ih =>
    intro pos ls pos' hp hle
    rw [readParents] at hp
    cases hc : readU 8 a pos with
    | none => rw [hc] at hp; cases hp
    | some c =>
      rw [hc] at hp
      dsimp only [] at hp
      cases hrec : readParents a (pos + 8 + 32 * c) k with
      | none => rw [hrec] at hp; cases hp
      | some pr =>
        obtain ⟨rest, p'⟩ := pr
        rw [hrec] at hp
        dsimp only [] at hp
        simp only [Option.some.injEq, Prod.mk.injEq] at hp
        obtain ⟨rfl, rfl⟩ := hp
        obtain ⟨hpos, -⟩ := readParents_pos a k (pos + 8 + 32 * c) rest p' hrec
        simp only [readParents, readU_append 8 a b pos (readU_bound hc), hc,
          ih (pos + 8 + 32 * c) rest p' hrec hle,
          readInner_append a b c (pos + 8) (by omega)]

/-- C6 (corrected).  If the decoder returns a header then (i) the input
was at least 100 bytes, (ii) every field up to and including `blue_score`
was fully in bounds — so an input whose parent-level counts or
fixed-width integer fields run past the end is rejected — and (iii) when
the trailing 32-byte `pruning_point` is also fully in bounds, unknown
trailing bytes are ignored: appending anything re-decodes to the same
header.  (Only the final `pruning_point` slice can run past the end
silently; see the counterexample.) -/
theorem deserialize_bounds (data : Bytes) (h : Header)
    (hdec : deserialize_bincode_header data = some h) :
    100 ≤ data.length ∧
    198 + parentsSize h.parents ≤ data.length ∧
    (230 + parentsSize h.parents ≤ data.length →
      ∀ extra : Bytes, deserialize_bincode_header (data ++ extra) = some h) := by
  unfold deserialize_bincode_header at hdec
  by_cases h100 : data.length < 100
  · rw [if_pos h100] at hdec; cases hdec
  rw [if_neg h100] at hdec
  cases hv : readU 2 data 32 with
  | none => rw [hv] at hdec; cases hdec
  | some version =>
  rw [hv] at hdec; dsimp only [] at hdec
  cases ho : readU 8 data 34 with
  | none => rw [ho] at hdec; cases hdec
  | some outerLen =>
  rw [ho] at hdec; dsimp only [] at hdec
  cases hpar : readParents data 42 outerLen with
  | none => rw [hpar] at hdec; cases hdec
  | some pr =>
  obtain ⟨parents, pos⟩ := pr
  rw [hpar] at hdec; dsimp only [] at hdec
  cases ht : readU 8 data (pos + 96) with
  | none => rw [ht] at hdec; cases hdec
  | some timestamp =>
  rw [ht] at hdec; dsimp only [] at hdec
  cases hbits : readU 4 data (pos + 104) with
  | none => rw [hbits] at hdec; cases hdec
  | some bits =>
  rw [hbits] at hdec; dsimp only [] at hdec
  cases hn : readU 8 data (pos + 108) with
  | none => rw [hn] at hdec; cases hdec
  | some nonce =>
  rw [hn] at hdec; dsimp only [] at hdec
  cases hdaa : readU 8 data (pos + 116) with
  | none => rw [hdaa] at hdec; cases hdec
  | some daaScore =>
  rw [hdaa] at hdec; dsimp only [] at hdec
  cases hbs : readU 8 data (pos + 148) with
  | none => rw [hbs] at hdec; cases hdec
  | some blueScore =>
  rw [hbs] at hdec; dsimp only [] at hdec
  injection hdec with hh
  subst hh
  obtain ⟨hpos, -⟩ := readParents_pos data outerLen 42 parents pos hpar
  have hbsb := readU_bound hbs
  refine ⟨by omega, ?_, ?_⟩
  · dsimp only [parentsSize]
    dsimp only [parentsSize] at hpos
    omega
  · intro hfull extra
    dsimp only [] at hfull
    unfold deserialize_bincode_header
    rw [if_neg (by simp only [List.length_append]; omega)]
    rw [readU_append 2 data extra 32 (by omega), hv]
    dsimp only []
    rw [readU_append 8 data extra 34 (by omega), ho]
    dsimp only []
    rw [readParents_append data extra outerLen 42 parents pos hpar (by omega)]
    dsimp only []
    rw [readU_append 8 data extra (pos + 96) (by omega), ht]
    dsimp only []
    rw [readU_append 4 data extra (pos + 104) (by omega), hbits]
    dsimp only []
    rw [readU_append 8 data extra (pos + 108) (by omega), hn]
    dsimp only []
    rw [readU_append 8 data extra (pos + 116) (by omega), hdaa]
    dsimp only []
    rw [readU_append 8 data extra (pos + 148) (by omega), hbs]
    dsimp only []
    rw [sliceN_append 32 data extra pos (by omega),
      sliceN_append 32 data extra (pos + 32) (by omega),
      sliceN_append 32 data extra (pos + 64) (by omega),
      sliceN_append 24 data extra (pos + 124) (by omega),
      sliceN_append 32 data extra (pos + 156) (by omega)]

set_option maxRecDepth 8000 in
/-- C6 counterexample: a 229-byte input (one byte short of the 230 a
zero-parent header needs) makes the final fixed-width field, the 32-byte
`pruning_point`, run past the end of the buffer — yet the decoder
succeeds, returning a header whose pruning point has only 31 bytes. -/
theorem deserialize_truncated_pruning_point :
    (deserialize_bincode_header (List.replicate 229 0)).isSome = true ∧
    (deserialize_bincode_header (List.replicate 229 0)).map
      (fun h => h.pruningPoint.length) = some 31 := by
  constructor <;> decide

/-- The header decoded from 230 zero bytes. -/
def zeroHeader230 : Header :=
  { version := 0, parents := [],
    hashMerkleRoot := List.replicate 32 0,
    acceptedIDMerkleRoot := List.replicate 32 0,
    utxoCommitment := List.replicate 32 0, timeInMilliseconds := 0, bits := 0,
    nonce := 0, daaScore := 0, blueScore := 0, blueWork := List.replicate 24 0,
    pruningPoint := List.replicate 32 0 }

set_option maxRecDepth 8000 in
/-- C6 witness: a fully in-bounds header decodes, and appending trailing
bytes decodes to the same header. -/
theorem deserialize_bounds_witness :
    deserialize_bincode_header (List.replicate 230 0) = some zeroHeader230 ∧
    deserialize_bincode_header (List.replicate 230 0 ++ [9, 9]) = some zeroHeader230 := by
  have hdec : deserialize_bincode_header (List.replicate 230 0) = some zeroHeader230 := by
    decide
  exact ⟨hdec,
    (deserialize_bounds (List.replicate 230 0) zeroHeader230 hdec).2.2 (by decide) [9, 9]⟩

end KaspaGenesis
